import Mathlib

/-!
Verification of the LLMafia game engine (src/models.py, src/controllers.py).

The Python data model and the phase controllers are shallowly embedded:
Python dicts become insertion-ordered association lists, in-place mutation
becomes explicit state passing, and code that can raise (`KeyError` on a
failed dict lookup) returns `Except String`.
-/

namespace LLMafia

/-- `GamePhase` enum (models.py). -/
inductive GamePhase where
  | DAY_DISCUSSION
  | DAY_VOTING
  | NIGHT_MAFIA_DISCUSSION
  | NIGHT_ACTION
  deriving DecidableEq, Repr

/-- `PlayerRole` enum (models.py). -/
inductive PlayerRole where
  | VILLAGER
  | MAFIA
  | DOCTOR
  | DETECTIVE
  | GODFATHER
  deriving DecidableEq, Repr

/-- `PlayerStatus` enum (models.py). -/
inductive PlayerStatus where
  | ALIVE
  | DEAD
  deriving DecidableEq, Repr

/-- `TeamAlignment` enum (models.py). -/
inductive TeamAlignment where
  | VILLAGE
  | MAFIA
  deriving DecidableEq, Repr

/-- Python `GamePhase.name`. -/
def GamePhase.name : GamePhase → String
  | .DAY_DISCUSSION => "DAY_DISCUSSION"
  | .DAY_VOTING => "DAY_VOTING"
  | .NIGHT_MAFIA_DISCUSSION => "NIGHT_MAFIA_DISCUSSION"
  | .NIGHT_ACTION => "NIGHT_ACTION"

/-- Python `PlayerRole.name`. -/
def PlayerRole.name : PlayerRole → String
  | .VILLAGER => "VILLAGER"
  | .MAFIA => "MAFIA"
  | .DOCTOR => "DOCTOR"
  | .DETECTIVE => "DETECTIVE"
  | .GODFATHER => "GODFATHER"

/-- `Player` dataclass (models.py).  The opaque agent-owned `memory` log is
not modelled: no engine operation verified here reads or writes it. -/
structure Player where
  id : String
  name : String
  role : PlayerRole
  status : PlayerStatus := .ALIVE
  «protected» : Bool := false
  known_roles : List (String × PlayerRole) := []
  deriving DecidableEq, Repr

/-- `Player.is_alive` property (models.py). -/
def Player.is_alive (p : Player) : Bool :=
  decide (p.status = PlayerStatus.ALIVE)

/-- `Player.team` property (models.py): Mafia and Godfather map to the MAFIA
team, every other role to VILLAGE. -/
def Player.team (p : Player) : TeamAlignment :=
  if p.role = PlayerRole.MAFIA ∨ p.role = PlayerRole.GODFATHER then
    TeamAlignment.MAFIA
  else
    TeamAlignment.VILLAGE

/-- `GameEvent` dataclass (models.py). -/
structure GameEvent where
  event_type : String
  round_num : Nat
  phase : GamePhase
  description : String
  public : Bool
  targets : List String := []
  deriving DecidableEq, Repr

/-- `Vote` dataclass (models.py). -/
structure Vote where
  voter_id : String
  target_id : String
  round_num : Nat
  phase : GamePhase
  deriving DecidableEq, Repr

/-- `Action` dataclass (models.py); `target_id` is `Optional[str]`. -/
structure Action where
  actor_id : String
  action_type : String
  target_id : Option String
  round_num : Nat
  phase : GamePhase
  success : Bool := true
  deriving DecidableEq, Repr

/-- `Message` dataclass (models.py). -/
structure Message where
  sender_name : String
  sender_id : String
  content : String
  round_num : Nat
  phase : GamePhase
  public : Bool
  recipients : List String := []
  deriving DecidableEq, Repr

/-- Python dict lookup `d[k]` / `d.get(k)`: the first entry with the key. -/
def dictGet {κ α : Type} [DecidableEq κ] : List (κ × α) → κ → Option α
  | [], _ => none
  | (k', v) :: rest, k => if k' = k then some v else dictGet rest k

/-- Python dict assignment `d[k] = v`: overwrite in place if the key exists
(keeping its position), otherwise append at the end. -/
def dictInsert {κ α : Type} [DecidableEq κ] : List (κ × α) → κ → α → List (κ × α)
  | [], k, v => [(k, v)]
  | (k', v') :: rest, k, v =>
    if k' = k then (k, v) :: rest else (k', v') :: dictInsert rest k v

/-- In-place mutation of the object stored at key `k` (Python objects are
mutated through the dict reference). -/
def dictModify {κ α : Type} [DecidableEq κ] : List (κ × α) → κ → (α → α) → List (κ × α)
  | [], _, _ => []
  | (k', v) :: rest, k, f =>
    (if k' = k then (k', f v) else (k', v)) :: dictModify rest k f

/-- Python `for v in d.values(): mutate v`: mutate every value in place. -/
def mapVals {κ α : Type} (f : α → α) (d : List (κ × α)) : List (κ × α) :=
  d.map (fun x => (x.1, f x.2))

/-- `GameState` dataclass (models.py).  The `players` dict is an
insertion-ordered association list from player id to `Player`. -/
structure GameState where
  players : List (String × Player)
  current_round : Nat := 1
  current_phase : GamePhase := .DAY_DISCUSSION
  events : List GameEvent := []
  votes : List Vote := []
  actions : List Action := []
  messages : List Message := []
  game_over : Bool := false
  winning_team : Option TeamAlignment := none
  deriving DecidableEq, Repr

/-- `GameState.alive_players` property (models.py). -/
def GameState.alive_players (gs : GameState) : List (String × Player) :=
  gs.players.filter (fun x => x.2.is_alive)

/-- `GameState.alive_mafia_count` property (models.py). -/
def GameState.alive_mafia_count (gs : GameState) : Nat :=
  (gs.players.filter
    (fun x => x.2.is_alive && decide (x.2.team = TeamAlignment.MAFIA))).length

/-- `GameState.alive_village_count` property (models.py). -/
def GameState.alive_village_count (gs : GameState) : Nat :=
  (gs.players.filter
    (fun x => x.2.is_alive && decide (x.2.team = TeamAlignment.VILLAGE))).length

/-- `GameState.check_game_over` (models.py): returns the boolean result and
the (possibly mutated) state. -/
def GameState.check_game_over (gs : GameState) : Bool × GameState :=
  if gs.alive_mafia_count = 0 then
    (true, { gs with game_over := true, winning_team := some TeamAlignment.VILLAGE })
  else if gs.alive_mafia_count ≥ gs.alive_village_count then
    (true, { gs with game_over := true, winning_team := some TeamAlignment.MAFIA })
  else
    (false, gs)

/-- `GameState.get_player_messages` (models.py). -/
def GameState.get_player_messages (gs : GameState) (player_id : String) : List Message :=
  gs.messages.filter (fun msg =>
    msg.public || decide (player_id ∈ msg.recipients) || decide (msg.sender_id = player_id))

/-- `GameState.get_player_events` (models.py). -/
def GameState.get_player_events (gs : GameState) (player_id : String) : List GameEvent :=
  gs.events.filter (fun event => event.public || decide (player_id ∈ event.targets))

/-- Configuration toggles read from `config["mechanics"]` (both default to
`True` in controllers.py). -/
structure Mechanics where
  godfather_appears_innocent : Bool := true
  reveal_role_on_death : Bool := true
  deriving DecidableEq, Repr

/-- `GameController._add_game_event` (controllers.py): appends a `GameEvent`
stamped with the current round and phase. -/
def addGameEvent (event_type description : String) (public : Bool)
    (targets : List String) (gs : GameState) : GameState :=
  { gs with events := gs.events ++
      [{ event_type := event_type, round_num := gs.current_round,
         phase := gs.current_phase, description := description,
         public := public, targets := targets }] }

/-- Seeding loop of a mafia-aligned player's `known_roles` inside
`GameController.initialize_game` (controllers.py lines 113-116): iterate over
the players created so far and record every mafia-aligned one into the newly
created player's `known_roles`. -/
def seedMafiaKnowledge (new_id : String) (players : List (String × Player)) :
    List (String × Player) :=
  dictModify players new_id (fun newp =>
    let kr := players.foldl
      (fun kr x =>
        if x.2.role = PlayerRole.MAFIA ∨ x.2.role = PlayerRole.GODFATHER then
          dictInsert kr x.1 x.2.role
        else kr)
      newp.known_roles
    { newp with known_roles := kr })

/-- Player-creation loop of `GameController.initialize_game` (controllers.py
lines 101-116), run on the post-shuffle `(name, role)` pairs; `i` is the
`enumerate` counter. -/
def initialize_game_loop :
    Nat → List (String × PlayerRole) → List (String × Player) → List (String × Player)
  | _, [], players => players
  | i, (name, role) :: rest, players =>
    let player_id := "player_" ++ toString (i + 1)
    let p : Player :=
      { id := player_id, name := name, role := role, status := .ALIVE,
        «protected» := false, known_roles := [] }
    let p := { p with known_roles := dictInsert p.known_roles player_id role }
    let players := players ++ [(player_id, p)]
    let players :=
      if role = PlayerRole.MAFIA ∨ role = PlayerRole.GODFATHER then
        seedMafiaKnowledge player_id players
      else players
    initialize_game_loop (i + 1) rest players

/-- `GameController.initialize_game` (controllers.py lines 56-143) after the
role shuffle: builds the player map and the initial `GameState` with the
public `game_start` event.  Randomness (the shuffle) is external, so the
embedding takes the already-zipped `(name, role)` list. -/
def initialize_game (names_roles : List (String × PlayerRole)) : GameState :=
  let players := initialize_game_loop 0 names_roles []
  let gs : GameState :=
    { players := players, current_round := 1,
      current_phase := GamePhase.DAY_DISCUSSION, events := [], votes := [],
      actions := [], messages := [], game_over := false, winning_team := none }
  addGameEvent "game_start"
    "The game has started. All players are gathering in the village." true [] gs

/-- Modelled from the spec: `GameState.reverse_players_order` is called by
`GameController.advance_phase` (controllers.py line 338) but its definition
is absent from the sources.  The spec states that the turn order is reversed
at the start of every Day-Discussion phase, so it reverses the stored player
order. -/
def GameState.reverse_players_order (gs : GameState) : GameState :=
  { gs with players := gs.players.reverse }

/-- `phase_order` list (controllers.py lines 315-320). -/
def phase_order : List GamePhase :=
  [GamePhase.DAY_DISCUSSION, GamePhase.DAY_VOTING,
   GamePhase.NIGHT_MAFIA_DISCUSSION, GamePhase.NIGHT_ACTION]

/-- Next-phase computation of `GameController.advance_phase` (controllers.py
lines 322-334): cyclic successor in `phase_order`, with the round-1 collapse
of `DAY_VOTING` and `NIGHT_ACTION`. -/
def nextPhaseOf (current_phase : GamePhase) (current_round : Nat) : GamePhase :=
  let current_index := phase_order.indexOf current_phase
  let next_index := (current_index + 1) % phase_order.length
  let next_phase := phase_order.getD next_index GamePhase.DAY_DISCUSSION
  if current_round = 1 then
    if next_phase = GamePhase.DAY_VOTING then GamePhase.NIGHT_MAFIA_DISCUSSION
    else if next_phase = GamePhase.NIGHT_ACTION then GamePhase.DAY_DISCUSSION
    else next_phase
  else next_phase

/-- `GameController.advance_phase` (controllers.py lines 310-359): on a
transition into `DAY_DISCUSSION` the player order is reversed, the round
counter is incremented and a public `new_round` event is emitted; a public
`phase_change` event is emitted on every transition. -/
def advance_phase (gs : GameState) : GameState :=
  let next_phase := nextPhaseOf gs.current_phase gs.current_round
  let gs :=
    if next_phase = GamePhase.DAY_DISCUSSION then gs.reverse_players_order else gs
  let gs :=
    if next_phase = GamePhase.DAY_DISCUSSION then
      let gs := { gs with current_round := gs.current_round + 1 }
      addGameEvent "new_round"
        ("Round " ++ toString gs.current_round ++ " has begun.") true [] gs
    else gs
  let gs := { gs with current_phase := next_phase }
  addGameEvent "phase_change" ("Moving to " ++ next_phase.name ++ ".") true [] gs

/-- The `(phase, round)` projection of `advance_phase`: the orchestrator's
finite-state machine. -/
def phaseRoundStep : GamePhase × Nat → GamePhase × Nat :=
  fun s =>
    let np := nextPhaseOf s.1 s.2
    (np, if np = GamePhase.DAY_DISCUSSION then s.2 + 1 else s.2)

/-- `(phase, round)` pairs reachable by the orchestrator, which starts at
`(DAY_DISCUSSION, 1)` (controllers.py lines 119-122) and moves only through
`advance_phase` (the phase controllers never touch phase or round). -/
inductive ReachablePR : GamePhase × Nat → Prop where
  | init : ReachablePR (GamePhase.DAY_DISCUSSION, 1)
  | step : ∀ {s}, ReachablePR s → ReachablePR (phaseRoundStep s)

/-- Ballot-collection loop of `DayVotingController._run_voting_round`
(controllers.py lines 539-594).  `ballots` maps a player id to the target id
returned by its agent (`none` models both `None` and the empty string, which
are falsy).  A ballot naming a non-alive target or the voter itself is
dropped with a warning.  The accumulator `votes` is the Python `votes`
counting dict. -/
def collectVotes (ballots : String → Option String) :
    List (String × Player) → List (String × Nat) → GameState →
    Except String (List (String × Nat) × GameState)
  | [], votes, gs => .ok (votes, gs)
  | (_, player) :: rest, votes, gs =>
    match ballots player.id with
    | none => collectVotes ballots rest votes gs
    | some target_id =>
      if (dictGet gs.alive_players target_id).isSome = false ∨ target_id = player.id then
        collectVotes ballots rest votes gs
      else
        let vote : Vote :=
          { voter_id := player.id, target_id := target_id,
            round_num := gs.current_round, phase := GamePhase.DAY_VOTING }
        let gs := { gs with votes := gs.votes ++ [vote] }
        let votes := dictInsert votes target_id ((dictGet votes target_id).getD 0 + 1)
        match dictGet gs.players target_id with
        | none => .error "KeyError"
        | some target =>
          let pn := player.name
          let tn := target.name
          let gs := addGameEvent "vote" (pn ++ " votes for " ++ tn) true
            [player.id, target_id] gs
          collectVotes ballots rest votes gs

/-- Python `max` over the non-empty list `v.2 :: (vs.map Prod.snd)`. -/
def pyMaxNat (v : Nat) (vs : List Nat) : Nat :=
  vs.foldl max v

/-- Python `max(votes.items(), key=lambda x: x[1])`: the FIRST item holding
the maximal count (later items replace the current best only when strictly
greater). -/
def pyMaxBySnd (v : String × Nat) (vs : List (String × Nat)) : String × Nat :=
  vs.foldl (fun best y => if best.2 < y.2 then y else best) v

/-- Name lookup `[self.game_state.players[pid].name for pid in ids]`
(controllers.py lines 602-604); `none` models a `KeyError`. -/
def namesOf (gs : GameState) : List String → Option (List String)
  | [] => some []
  | pid :: rest =>
    match dictGet gs.players pid with
    | none => none
    | some p => (namesOf gs rest).map (fun ns => p.name :: ns)

/-- Tie branch of the vote resolution (controllers.py lines 601-612): a
public tie `vote_result` event, nobody eliminated. -/
def tieVoteResult (eliminated_players : List String) (max_votes : Nat)
    (gs : GameState) : GameState :=
  let names := String.intercalate ", " eliminated_players
  let mv := toString max_votes
  addGameEvent "vote_result"
    (names ++ " are tied with " ++ mv ++ " votes each. No one is eliminated.")
    true [] gs

/-- Elimination branch of the vote resolution (controllers.py lines
614-649): the winner of the vote dies, a public `vote_result`/`elimination`
event pair is emitted, and with `reveal_role_on_death` every player's
`known_roles` learns the eliminated player's role. -/
def eliminateByVote (cfg : Mechanics) (eliminated_id : String)
    (eliminated_player : Player) (max_votes : Nat) (gs : GameState) : GameState :=
  let ps0 := dictModify gs.players eliminated_id (fun p => { p with status := .DEAD })
  let gs := { gs with players := ps0 }
  let en := eliminated_player.name
  let mv := toString max_votes
  let gs := addGameEvent "vote_result"
    (en ++ " has been eliminated with " ++ mv ++ " votes!") true [eliminated_id] gs
  if cfg.reveal_role_on_death then
    let rn := eliminated_player.role.name
    let gs := addGameEvent "elimination"
      (en ++ " has been eliminated! They were a " ++ rn ++ ".") true
      [eliminated_id] gs
    let ps := mapVals (fun p =>
      { p with known_roles :=
          dictInsert p.known_roles eliminated_id eliminated_player.role })
      gs.players
    { gs with players := ps }
  else
    addGameEvent "elimination" (en ++ " has been eliminated!") true
      [eliminated_id] gs

/-- Vote-resolution block of `DayVotingController._run_voting_round`
(controllers.py lines 596-649): with no valid ballot nothing happens; on a
tie for the maximum a public tie `vote_result` event is emitted and nobody
dies; otherwise the unique maximum holder is eliminated, a public
`vote_result`/`elimination` event pair is emitted, and with the
`reveal_role_on_death` mechanic every player's `known_roles` learns the
eliminated player's role. -/
def resolveVotes (cfg : Mechanics) (votes : List (String × Nat)) (gs : GameState) :
    Except String GameState :=
  match votes with
  | [] => .ok gs
  | v :: vs =>
    let max_votes := pyMaxNat v.2 (vs.map Prod.snd)
    let tied_players := ((v :: vs).filter (fun x => decide (x.2 = max_votes))).map Prod.fst
    if 1 < tied_players.length then
      match namesOf gs tied_players with
      | none => .error "KeyError"
      | some eliminated_players =>
        .ok (tieVoteResult eliminated_players max_votes gs)
    else
      let eliminated_id := (pyMaxBySnd v vs).1
      match dictGet gs.players eliminated_id with
      | none => .error "KeyError"
      | some eliminated_player =>
        .ok (eliminateByVote cfg eliminated_id eliminated_player max_votes gs)

/-- `DayVotingController._run_voting_round` (controllers.py lines 537-649):
collect the ballots of the alive players in turn order, then resolve. -/
def run_voting_round (cfg : Mechanics) (gs : GameState)
    (ballots : String → Option String) : Except String GameState :=
  match collectVotes ballots gs.alive_players [] gs with
  | .error e => .error e
  | .ok (votes, gs) => resolveVotes cfg votes gs

/-- `[p.id for p in players.values() if p.team == TeamAlignment.MAFIA]`
(controllers.py lines 897-901 and 919-923): ids of ALL mafia-aligned
players, dead ones included. -/
def mafiaIds (players : List (String × Player)) : List String :=
  (players.filter (fun x => decide (x.2.team = TeamAlignment.MAFIA))).map
    (fun x => x.2.id)

/-- Kill-action selection of `NightActionController._process_night_actions`
(controllers.py lines 821-826): the Godfather's action takes precedence over
a plain Mafia action. -/
def killActionOf (actions : List (PlayerRole × Action)) : Option Action :=
  match dictGet actions PlayerRole.GODFATHER with
  | some a => some a
  | none => dictGet actions PlayerRole.MAFIA

/-- `appears_innocent` computation of the Detective block (controllers.py
lines 842-845). -/
def appearsInnocent (cfg : Mechanics) (target : Player) : Bool :=
  decide (target.role = PlayerRole.GODFATHER) && cfg.godfather_appears_innocent

/-- Investigation result string (controllers.py lines 848-852). -/
def investigationResult (cfg : Mechanics) (target : Player) : String :=
  if target.team = TeamAlignment.VILLAGE ∨ appearsInnocent cfg target = true then
    "innocent"
  else "Mafia"

/-- Detective block of `NightActionController._process_night_actions`
(controllers.py lines 834-864).  The unguarded dict lookups of the actor and
the target raise `KeyError` when the id does not resolve. -/
def stageInvestigate (investigate_action : Option Action) (cfg : Mechanics)
    (gs : GameState) : Except String GameState :=
  match investigate_action with
  | none => .ok gs
  | some ia =>
    match dictGet gs.players ia.actor_id with
    | none => .error "KeyError"
    | some detective =>
      match ia.target_id with
      | none => .error "KeyError"
      | some tid =>
        match dictGet gs.players tid with
        | none => .error "KeyError"
        | some target =>
          let result := investigationResult cfg target
          let gs :=
            if appearsInnocent cfg target = false then
              { gs with players := dictModify gs.players ia.actor_id (fun p =>
                  { p with known_roles :=
                      dictInsert p.known_roles target.id target.role }) }
            else gs
          let tn := target.name
          .ok (addGameEvent "investigation"
            ("You investigated " ++ tn ++ " and found them to be " ++ result ++ ".")
            false [detective.id] gs)

/-- Protection body of the Doctor block (controllers.py lines 871-881):
sets the target's `protected` flag and emits the doctor-private event. -/
def protectPlayer (protected_player_id : String) (protected_player : Player)
    (actor_id : String) (gs : GameState) : GameState :=
  let ps0 := dictModify gs.players protected_player_id
    (fun p => { p with «protected» := true })
  let gs := { gs with players := ps0 }
  let pn := protected_player.name
  addGameEvent "protection"
    ("You protected " ++ pn ++ " for the night.") false [actor_id] gs

/-- Doctor block dispatcher of `NightActionController._process_night_actions`
(controllers.py lines 866-881): looks up the target and runs the protection,
returning `protected_player_id`. -/
def stageProtect (protect_action : Option Action) (gs : GameState) :
    Except String (Option String × GameState) :=
  match protect_action with
  | none => .ok (none, gs)
  | some pa =>
    match pa.target_id with
    | none => .error "KeyError"
    | some protected_player_id =>
      match dictGet gs.players protected_player_id with
      | none => .error "KeyError"
      | some protected_player =>
        .ok (some protected_player_id,
          protectPlayer protected_player_id protected_player pa.actor_id gs)

/-- Failed-kill branch of the kill block (controllers.py lines 891-909): a
mafia-private `kill_failed` event and a public peaceful-night `night_result`
event; nobody dies. -/
def killFailed (target : Player) (gs : GameState) : GameState :=
  let tn := target.name
  let gs := addGameEvent "kill_failed"
    ("You tried to eliminate " ++ tn ++ ", but they were protected!") false
    (mafiaIds gs.players) gs
  addGameEvent "night_result"
    "The night passes peacefully. No one was eliminated." true [] gs

/-- Successful-kill branch of the kill block (controllers.py lines 910-944):
the target dies, a mafia-private `kill_success` event and a public
`night_elimination` event are emitted, and with `reveal_role_on_death` every
player's `known_roles` learns the victim's role. -/
def killSuccess (cfg : Mechanics) (target_id : String) (target : Player)
    (gs : GameState) : GameState :=
  let ps0 := dictModify gs.players target_id (fun p => { p with status := .DEAD })
  let gs := { gs with players := ps0 }
  let tn := target.name
  let gs := addGameEvent "kill_success"
    ("You successfully eliminated " ++ tn ++ "!") false (mafiaIds gs.players) gs
  if cfg.reveal_role_on_death then
    let rn := target.role.name
    let gs := addGameEvent "night_elimination"
      (tn ++ " was found dead! They were a " ++ rn ++ ".") true [target_id] gs
    let ps := mapVals (fun p =>
      { p with known_roles := dictInsert p.known_roles target_id target.role })
      gs.players
    { gs with players := ps }
  else
    addGameEvent "night_elimination" (tn ++ " was found dead!") true [target_id] gs

/-- Kill block of `NightActionController._process_night_actions`
(controllers.py lines 883-951), dispatching between the failed and
successful branches; no kill action at all emits the public peaceful-night
event. -/
def stageKill (kill_action : Option Action) (protected_player_id : Option String)
    (cfg : Mechanics) (gs : GameState) : Except String GameState :=
  match kill_action with
  | none =>
    .ok (addGameEvent "night_result"
      "The night passes peacefully. No one was eliminated." true [] gs)
  | some ka =>
    match ka.target_id with
    | none => .error "KeyError"
    | some target_id =>
      match dictGet gs.players target_id with
      | none => .error "KeyError"
      | some target =>
        if some target_id = protected_player_id then
          .ok (killFailed target gs)
        else
          .ok (killSuccess cfg target_id target gs)

/-- End-of-night reset (controllers.py lines 953-955): every player's
`protected` flag is cleared. -/
def resetProtected (gs : GameState) : GameState :=
  { gs with players := mapVals (fun p => { p with «protected» := false }) gs.players }

/-- `NightActionController._process_night_actions` (controllers.py lines
814-955): detective, then doctor, then kill, then the protection reset. -/
def process_night_actions (actions : List (PlayerRole × Action)) (cfg : Mechanics)
    (gs : GameState) : Except String GameState :=
  match stageInvestigate (dictGet actions PlayerRole.DETECTIVE) cfg gs with
  | .error e => .error e
  | .ok gs =>
    match stageProtect (dictGet actions PlayerRole.DOCTOR) gs with
    | .error e => .error e
    | .ok (protected_player_id, gs) =>
      match stageKill (killActionOf actions) protected_player_id cfg gs with
      | .error e => .error e
      | .ok gs => .ok (resetProtected gs)

/-- Action-collection loop of `NightActionController._run_action_round`
(controllers.py lines 786-809): actions are indexed BY ROLE, appended to the
action log, and logged through an unguarded
`self.game_state.players[action.target_id].name` lookup that raises
`KeyError` when the target id does not resolve. -/
def collectActions (acts : String → Option Action) :
    List (String × Player) → List (PlayerRole × Action) → GameState →
    Except String (List (PlayerRole × Action) × GameState)
  | [], actions, gs => .ok (actions, gs)
  | (_, player) :: rest, actions, gs =>
    match acts player.id with
    | none => collectActions acts rest actions gs
    | some action =>
      let actions := dictInsert actions player.role action
      let gs := { gs with actions := gs.actions ++ [action] }
      match action.target_id.bind (dictGet gs.players) with
      | none => .error "KeyError"
      | some _ => collectActions acts rest actions gs

/-- `NightActionController._run_action_round` (controllers.py lines
786-812): collect the alive players' night actions, then process them. -/
def run_action_round (cfg : Mechanics) (gs : GameState)
    (acts : String → Option Action) : Except String GameState :=
  match collectActions acts gs.alive_players [] gs with
  | .error e => .error e
  | .ok (actions, gs) => process_night_actions actions cfg gs

/-! ### Concrete fixtures used by witnesses and concrete claims -/

/-- A five-player cast. -/
def alice : Player := { id := "player_1", name := "Alice", role := PlayerRole.DOCTOR }

def bob : Player := { id := "player_2", name := "Bob", role := PlayerRole.MAFIA }

def carol : Player := { id := "player_3", name := "Carol", role := PlayerRole.VILLAGER }

def dave : Player := { id := "player_4", name := "Dave", role := PlayerRole.DETECTIVE }

def erin : Player := { id := "player_5", name := "Erin", role := PlayerRole.GODFATHER }

/-- A night-2 state with all five players alive. -/
def gsW : GameState :=
  { players := [("player_1", alice), ("player_2", bob), ("player_3", carol),
                ("player_4", dave), ("player_5", erin)],
    current_round := 2, current_phase := GamePhase.NIGHT_ACTION }

/-- Doctor protects Carol. -/
def protCarol : Action :=
  { actor_id := "player_1", action_type := "protect", target_id := some "player_3",
    round_num := 2, phase := GamePhase.NIGHT_ACTION }

/-- Mafia kill aimed at Carol. -/
def killCarol : Action :=
  { actor_id := "player_2", action_type := "kill", target_id := some "player_3",
    round_num := 2, phase := GamePhase.NIGHT_ACTION }

/-- Detective investigates the Godfather. -/
def invErin : Action :=
  { actor_id := "player_4", action_type := "investigate", target_id := some "player_5",
    round_num := 2, phase := GamePhase.NIGHT_ACTION }

/-- Night actions for the doctor-saves-the-target scenario. -/
def actsW : List (PlayerRole × Action) :=
  [(PlayerRole.DOCTOR, protCarol), (PlayerRole.MAFIA, killCarol)]

/-- The state produced by resolving `actsW` on `gsW` (used to discharge the
resolution hypothesis of the protected-kill theorem at a concrete input). -/
def gsW5 : GameState :=
  match process_night_actions actsW {} gsW with
  | .ok gs => gs
  | .error _ => gsW

/-- The same cast during day discussion of round 2. -/
def gsWDay : GameState := { gsW with current_phase := GamePhase.DAY_DISCUSSION }

/-- A kill action whose target id resolves to no player. -/
def killGhost : Action :=
  { actor_id := "player_2", action_type := "kill", target_id := some "ghost",
    round_num := 2, phase := GamePhase.NIGHT_ACTION }

/-- A state with a single alive mafia player, used for the unresolvable
target scenario. -/
def gsGhost : GameState :=
  { players := [("player_2", bob)], current_round := 2,
    current_phase := GamePhase.NIGHT_ACTION }

/-- A private message sent by Bob with no recipients. -/
def bobSecret : Message :=
  { sender_name := "Bob", sender_id := "player_2", content := "psst",
    round_num := 2, phase := GamePhase.NIGHT_MAFIA_DISCUSSION, public := false,
    recipients := [] }

/-- A state containing only Bob's private message. -/
def gsMsg : GameState := { gsW with messages := [bobSecret] }

/-- The `new_round` event emitted by `advance_phase` (stamped with the
incremented round and the not-yet-updated phase). -/
def newRoundEvent (round : Nat) (phase : GamePhase) : GameEvent :=
  { event_type := "new_round", round_num := round, phase := phase,
    description := "Round " ++ toString round ++ " has begun.",
    public := true, targets := [] }

/-- The `phase_change` event emitted by `advance_phase`. -/
def phaseChangeEvent (round : Nat) (phase next_phase : GamePhase) : GameEvent :=
  { event_type := "phase_change", round_num := round, phase := phase,
    description := "Moving to " ++ next_phase.name ++ ".",
    public := true, targets := [] }

/-! ### Association-list lemmas -/

theorem dictGet_dictInsert_self {κ α : Type} [DecidableEq κ]
    (d : List (κ × α)) (k : κ) (v : α) : dictGet (dictInsert d k v) k = some v := by
  induction d with
  | nil => simp [dictGet, dictInsert]
  | cons x rest ih =>
    by_cases h : x.1 = k
    · simp [dictGet, dictInsert, h]
    · simp [dictGet, dictInsert, h, ih]

theorem dictGet_mapVals {κ α : Type} [DecidableEq κ]
    (f : α → α) (d : List (κ × α)) (k : κ) :
    dictGet (mapVals f d) k = (dictGet d k).map f := by
  induction d with
  | nil => simp [dictGet, mapVals]
  | cons x rest ih =>
    by_cases h : x.1 = k
    · simp [dictGet, mapVals, h]
    · simpa [dictGet, mapVals, h] using ih

theorem dictGet_dictModify_self {κ α : Type} [DecidableEq κ]
    (d : List (κ × α)) (k : κ) (f : α → α) :
    dictGet (dictModify d k f) k = (dictGet d k).map f := by
  induction d with
  | nil => simp [dictGet, dictModify]
  | cons x rest ih =>
    obtain ⟨xk, xv⟩ := x
    by_cases h : xk = k
    · subst h
      show dictGet ((if xk = xk then (xk, f xv) else (xk, xv)) :: dictModify rest xk f) xk = _
      rw [if_pos rfl]
      simp [dictGet]
    · show dictGet ((if xk = k then (xk, f xv) else (xk, xv)) :: dictModify rest k f) k = _
      rw [if_neg h]
      simp [dictGet, h, ih]

theorem dictGet_dictModify_ne {κ α : Type} [DecidableEq κ]
    (d : List (κ × α)) (k k' : κ) (f : α → α) (h : k' ≠ k) :
    dictGet (dictModify d k f) k' = dictGet d k' := by
  induction d with
  | nil => simp [dictGet, dictModify]
  | cons x rest ih =>
    obtain ⟨xk, xv⟩ := x
    show dictGet ((if xk = k then (xk, f xv) else (xk, xv)) :: dictModify rest k f) k' = _
    by_cases hx : xk = k
    · subst hx
      have hne : xk ≠ k' := fun hk => h hk.symm
      rw [if_pos rfl]
      simp [dictGet, hne, ih]
    · rw [if_neg hx]
      by_cases hx' : xk = k'
      · simp [dictGet, hx']
      · simp [dictGet, hx', ih]

/-- Observation of a player map used by the night resolver: the status of
the player stored at a key. -/
def statusAt (d : List (String × Player)) (k : String) : Option PlayerStatus :=
  (dictGet d k).map Player.status

theorem statusAt_mapVals (f : Player → Player) (d : List (String × Player)) (k : String)
    (hf : ∀ p, (f p).status = p.status) : statusAt (mapVals f d) k = statusAt d k := by
  unfold statusAt
  rw [dictGet_mapVals]
  cases dictGet d k with
  | none => rfl
  | some p => simp [hf]

theorem statusAt_dictModify (d : List (String × Player)) (k k' : String)
    (f : Player → Player) (hf : ∀ p, (f p).status = p.status) :
    statusAt (dictModify d k f) k' = statusAt d k' := by
  by_cases h : k' = k
  · subst h
    unfold statusAt
    rw [dictGet_dictModify_self]
    cases dictGet d k' with
    | none => rfl
    | some p => simp [hf]
  · unfold statusAt
    rw [dictGet_dictModify_ne _ _ _ _ h]

theorem mafiaIds_mapVals (f : Player → Player) (d : List (String × Player))
    (hf : ∀ p, (f p).team = p.team ∧ (f p).id = p.id) :
    mafiaIds (mapVals f d) = mafiaIds d := by
  induction d with
  | nil => rfl
  | cons x rest ih =>
    by_cases h : x.2.team = TeamAlignment.MAFIA
    · simp [mafiaIds, mapVals, List.filter, (hf x.2).1, (hf x.2).2, h] at ih ⊢
      exact ih
    · simp [mafiaIds, mapVals, List.filter, (hf x.2).1, (hf x.2).2, h] at ih ⊢
      exact ih

theorem mafiaIds_dictModify (d : List (String × Player)) (k : String)
    (f : Player → Player) (hf : ∀ p, (f p).team = p.team ∧ (f p).id = p.id) :
    mafiaIds (dictModify d k f) = mafiaIds d := by
  induction d with
  | nil => rfl
  | cons x rest ih =>
    by_cases hx : x.1 = k
    · by_cases h : x.2.team = TeamAlignment.MAFIA <;>
        simp [mafiaIds, dictModify, List.filter, hx, (hf x.2).1, (hf x.2).2, h] at ih ⊢ <;>
        exact ih
    · by_cases h : x.2.team = TeamAlignment.MAFIA <;>
        simp [mafiaIds, dictModify, List.filter, hx, h] at ih ⊢ <;>
        exact ih

theorem mem_mafiaIds (d : List (String × Player)) (kp : String × Player)
    (hmem : kp ∈ d) (hteam : kp.2.team = TeamAlignment.MAFIA) :
    kp.2.id ∈ mafiaIds d := by
  unfold mafiaIds
  exact List.mem_map.mpr ⟨kp, List.mem_filter.mpr ⟨hmem, by simp [hteam]⟩, rfl⟩

/-! ### Python `max` lemmas -/

theorem pyMaxNat_cons (v w : Nat) (ws : List Nat) :
    pyMaxNat v (w :: ws) = pyMaxNat (max v w) ws := rfl

theorem le_pyMaxNat (v : Nat) (vs : List Nat) : v ≤ pyMaxNat v vs := by
  induction vs generalizing v with
  | nil => simp [pyMaxNat]
  | cons w ws ih =>
    rw [pyMaxNat_cons]
    exact le_trans (le_max_left v w) (ih (max v w))

theorem pyMaxNat_le_of (v : Nat) (vs : List Nat) (b : Nat) (hv : v ≤ b)
    (h : ∀ y ∈ vs, y ≤ b) : pyMaxNat v vs ≤ b := by
  induction vs generalizing v with
  | nil => simpa [pyMaxNat] using hv
  | cons w ws ih =>
    rw [pyMaxNat_cons]
    exact ih (max v w) (max_le hv (h w (by simp)))
      (fun y hy => h y (by simp [hy]))

theorem mem_le_pyMaxNat (v : Nat) (vs : List Nat) (y : Nat) (hy : y ∈ vs) :
    y ≤ pyMaxNat v vs := by
  induction vs generalizing v with
  | nil => cases hy
  | cons w ws ih =>
    rw [pyMaxNat_cons]
    rcases List.mem_cons.mp hy with h | h
    · subst h
      exact le_trans (le_max_right v y) (le_pyMaxNat _ _)
    · exact ih (max v w) h

theorem pyMaxBySnd_mem (v : String × Nat) (vs : List (String × Nat)) :
    pyMaxBySnd v vs ∈ v :: vs := by
  induction vs generalizing v with
  | nil => simp [pyMaxBySnd]
  | cons w ws ih =>
    unfold pyMaxBySnd at ih ⊢
    simp only [List.foldl_cons]
    by_cases h : v.2 < w.2
    · simp only [h, if_pos]
      rcases List.mem_cons.mp (ih w) with hh | hh
      · simp [hh]
      · simp [hh]
    · simp only [h, if_neg, if_false]
      rcases List.mem_cons.mp (ih v) with hh | hh
      · simp [hh]
      · simp [hh]

theorem pyMaxBySnd_ge (v : String × Nat) (vs : List (String × Nat)) :
    ∀ y ∈ v :: vs, y.2 ≤ (pyMaxBySnd v vs).2 := by
  induction vs generalizing v with
  | nil => simp [pyMaxBySnd]
  | cons w ws ih =>
    intro y hy
    unfold pyMaxBySnd
    simp only [List.foldl_cons]
    by_cases h : v.2 < w.2
    · simp only [h, if_pos]
      rcases List.mem_cons.mp hy with hh | hh
      · subst hh
        exact le_trans (le_of_lt h) (ih w w (by simp))
      · rcases List.mem_cons.mp hh with hh2 | hh2
        · subst hh2
          exact ih y y (by simp)
        · exact ih w y (by simp [hh2])
    · simp only [h, if_neg, if_false]
      rcases List.mem_cons.mp hy with hh | hh
      · subst hh
        exact ih y y (by simp)
      · rcases List.mem_cons.mp hh with hh2 | hh2
        · subst hh2
          exact le_trans (le_of_not_lt h) (ih v v (by simp))
        · exact ih v y (by simp [hh2])

theorem pyMaxBySnd_snd (v : String × Nat) (vs : List (String × Nat)) :
    (pyMaxBySnd v vs).2 = pyMaxNat v.2 (vs.map Prod.snd) := by
  apply le_antisymm
  · rcases List.mem_cons.mp (pyMaxBySnd_mem v vs) with h | h
    · rw [h]
      exact le_pyMaxNat _ _
    · exact mem_le_pyMaxNat _ _ _ (List.mem_map.mpr ⟨_, h, rfl⟩)
  · apply pyMaxNat_le_of
    · exact pyMaxBySnd_ge v vs v (by simp)
    · intro y hy
      rcases List.mem_map.mp hy with ⟨z, hz, rfl⟩
      exact pyMaxBySnd_ge v vs z (by simp [hz])

/-! ### Phase-machine lemmas -/

theorem nextPhaseOf_eq_DD_iff (ph : GamePhase) (r : Nat) :
    nextPhaseOf ph r = GamePhase.DAY_DISCUSSION ↔
      (ph = GamePhase.NIGHT_ACTION ∨
        (ph = GamePhase.NIGHT_MAFIA_DISCUSSION ∧ r = 1)) := by
  by_cases hr : r = 1
  · subst hr
    cases ph <;> decide
  · cases ph <;> simp only [nextPhaseOf, phase_order, hr] <;> simp [hr]

/-- Invariant of the orchestrator's `(phase, round)` machine: the round never
drops below 1, and during round 1 only the two discussion phases occur. -/
theorem reachablePR_invariant (s : GamePhase × Nat) (h : ReachablePR s) :
    1 ≤ s.2 ∧ (s.2 = 1 → s.1 = GamePhase.DAY_DISCUSSION ∨
      s.1 = GamePhase.NIGHT_MAFIA_DISCUSSION) := by
  induction h with
  | init => exact ⟨le_refl 1, fun _ => Or.inl rfl⟩
  | step hreach ih =>
    rename_i t
    obtain ⟨h1, h2⟩ := ih
    obtain ⟨ph, r⟩ := t
    by_cases hr : r = 1
    · subst hr
      have h2' : ph = GamePhase.DAY_DISCUSSION ∨
          ph = GamePhase.NIGHT_MAFIA_DISCUSSION := h2 rfl
      rcases h2' with hph | hph <;> subst hph <;> exact ⟨by decide, by decide⟩
    · refine ⟨?_, ?_⟩
      · simp only [phaseRoundStep]
        by_cases hnp : nextPhaseOf ph r = GamePhase.DAY_DISCUSSION
        · simp only [hnp, if_pos]
          omega
        · rw [if_neg hnp]
          omega
      · intro hs
        exfalso
        simp only [phaseRoundStep] at hs
        by_cases hnp : nextPhaseOf ph r = GamePhase.DAY_DISCUSSION
        · rw [if_pos hnp] at hs
          omega
        · rw [if_neg hnp] at hs
          omega

/-- C8: in every reachable orchestrator state, `DAY_VOTING` and
`NIGHT_ACTION` never occur while the round equals 1, and during round 1 the
machine steps `DAY_DISCUSSION ↦ NIGHT_MAFIA_DISCUSSION` and
`NIGHT_MAFIA_DISCUSSION ↦ DAY_DISCUSSION` (entering round 2); the
`(phase, round)` machine is exactly the projection of `advance_phase`. -/
theorem c8_round_one_has_no_voting_or_night_action :
    (∀ s : GamePhase × Nat, ReachablePR s → s.2 = 1 →
      s.1 ≠ GamePhase.DAY_VOTING ∧ s.1 ≠ GamePhase.NIGHT_ACTION) ∧
    (∀ gs : GameState,
      ((advance_phase gs).current_phase, (advance_phase gs).current_round) =
        phaseRoundStep (gs.current_phase, gs.current_round)) ∧
    phaseRoundStep (GamePhase.DAY_DISCUSSION, 1) =
      (GamePhase.NIGHT_MAFIA_DISCUSSION, 1) ∧
    phaseRoundStep (GamePhase.NIGHT_MAFIA_DISCUSSION, 1) =
      (GamePhase.DAY_DISCUSSION, 2) := by
  refine ⟨?_, ?_, by decide, by decide⟩
  · intro s hs h1
    rcases (reachablePR_invariant s hs).2 h1 with hph | hph <;>
      rw [hph] <;> exact ⟨by decide, by decide⟩
  · intro gs
    by_cases h : nextPhaseOf gs.current_phase gs.current_round = GamePhase.DAY_DISCUSSION <;>
      simp [advance_phase, phaseRoundStep, addGameEvent, GameState.reverse_players_order, h]

/-- Witness for C8 at the concrete reachable state
`(NIGHT_MAFIA_DISCUSSION, 1)`. -/
theorem c8_witness :
    GamePhase.NIGHT_MAFIA_DISCUSSION ≠ GamePhase.DAY_VOTING ∧
    GamePhase.NIGHT_MAFIA_DISCUSSION ≠ GamePhase.NIGHT_ACTION := by
  have hreach : ReachablePR (GamePhase.NIGHT_MAFIA_DISCUSSION, 1) := by
    have h := ReachablePR.step ReachablePR.init
    simpa using h
  exact c8_round_one_has_no_voting_or_night_action.1 _ hreach rfl

/-- C2: `check_game_over` returns true exactly when the mafia are wiped out
or reach numeric parity with the village; on true it sets `game_over` and
picks `VILLAGE` exactly when no mafia is alive, `MAFIA` otherwise; on false
the state is untouched. -/
theorem c2_check_game_over_correct (gs : GameState) :
    ((gs.check_game_over).1 = true ↔
      (gs.alive_mafia_count = 0 ∨ gs.alive_mafia_count ≥ gs.alive_village_count)) ∧
    ((gs.check_game_over).1 = true →
      (gs.check_game_over).2.game_over = true ∧
      (gs.alive_mafia_count = 0 →
        (gs.check_game_over).2.winning_team = some TeamAlignment.VILLAGE) ∧
      (gs.alive_mafia_count ≠ 0 →
        (gs.check_game_over).2.winning_team = some TeamAlignment.MAFIA)) ∧
    ((gs.check_game_over).1 = false → (gs.check_game_over).2 = gs) := by
  by_cases h0 : gs.alive_mafia_count = 0
  · simp [GameState.check_game_over, h0]
  · by_cases h1 : gs.alive_mafia_count ≥ gs.alive_village_count
    · simp [GameState.check_game_over, h0, h1]
    · simp [GameState.check_game_over, h0, h1]

/-- Witness for C2: a mafia-majority state triggers a MAFIA win, and a
balanced state leaves the game running and the state unchanged. -/
theorem c2_witness :
    ((gsGhost.check_game_over).2.game_over = true ∧
      (gsGhost.check_game_over).2.winning_team = some TeamAlignment.MAFIA) ∧
    (gsW.check_game_over).2 = gsW := by
  refine ⟨?_, ?_⟩
  · have h := (c2_check_game_over_correct gsGhost).2.1 (by decide)
    exact ⟨h.1, h.2.2 (by decide)⟩
  · exact (c2_check_game_over_correct gsW).2.2 (by decide)

/-- C10: `get_player_messages` always returns a message to its sender, even
when the message is private and the sender is not among its recipients. -/
theorem c10_sender_sees_own_messages (gs : GameState) (player_id : String)
    (m : Message) (hm : m ∈ gs.messages) (hs : m.sender_id = player_id) :
    m ∈ gs.get_player_messages player_id := by
  unfold GameState.get_player_messages
  refine List.mem_filter.mpr ⟨hm, ?_⟩
  simp [hs]

/-- Witness for C10: Bob's private, recipient-less message is visible to
Bob. -/
theorem c10_witness : bobSecret ∈ gsMsg.get_player_messages "player_2" :=
  c10_sender_sees_own_messages gsMsg "player_2" bobSecret (by decide) rfl

/-- C1: `advance_phase` moves into `DAY_DISCUSSION` exactly when leaving
`NIGHT_ACTION`, or leaving `NIGHT_MAFIA_DISCUSSION` during round 1; on that
transition the player order (hence the alive players' turn order) is
reversed, the round is incremented by exactly one and a public `new_round`
event is emitted; on every other transition the round and the player order
are untouched. -/
theorem c1_new_round_on_entering_day_discussion (gs : GameState) :
    (nextPhaseOf gs.current_phase gs.current_round = GamePhase.DAY_DISCUSSION ↔
      (gs.current_phase = GamePhase.NIGHT_ACTION ∨
        (gs.current_phase = GamePhase.NIGHT_MAFIA_DISCUSSION ∧
          gs.current_round = 1))) ∧
    (nextPhaseOf gs.current_phase gs.current_round = GamePhase.DAY_DISCUSSION →
      (advance_phase gs).players = gs.players.reverse ∧
      (advance_phase gs).alive_players = gs.alive_players.reverse ∧
      (advance_phase gs).current_round = gs.current_round + 1 ∧
      (∃ e pc, (advance_phase gs).events = gs.events ++ [e, pc] ∧
        e.event_type = "new_round" ∧ e.public = true ∧
        e.round_num = gs.current_round + 1 ∧
        pc.event_type = "phase_change" ∧ pc.public = true)) ∧
    (nextPhaseOf gs.current_phase gs.current_round ≠ GamePhase.DAY_DISCUSSION →
      (advance_phase gs).current_round = gs.current_round ∧
      (advance_phase gs).players = gs.players) := by
  refine ⟨nextPhaseOf_eq_DD_iff _ _, ?_, ?_⟩
  · intro h
    refine ⟨?_, ?_, ?_, ?_⟩
    · simp [advance_phase, h, GameState.reverse_players_order, addGameEvent]
    · simp [advance_phase, h, GameState.reverse_players_order, addGameEvent,
        GameState.alive_players, List.filter_reverse]
    · simp [advance_phase, h, GameState.reverse_players_order, addGameEvent]
    · refine ⟨newRoundEvent (gs.current_round + 1) gs.current_phase,
        phaseChangeEvent (gs.current_round + 1) GamePhase.DAY_DISCUSSION
          GamePhase.DAY_DISCUSSION, ?_, rfl, rfl, rfl, rfl, rfl⟩
      simp [advance_phase, h, GameState.reverse_players_order, addGameEvent,
        newRoundEvent, phaseChangeEvent]
  · intro h
    constructor
    · simp [advance_phase, h, addGameEvent]
    · simp [advance_phase, h, addGameEvent]

/-- Witness for C1: leaving `NIGHT_ACTION` in round 2 reverses the players
and increments the round; leaving `DAY_DISCUSSION` in round 2 keeps both. -/
theorem c1_witness :
    ((advance_phase gsW).players = gsW.players.reverse ∧
      (advance_phase gsW).current_round = gsW.current_round + 1) ∧
    ((advance_phase gsWDay).current_round = gsWDay.current_round ∧
      (advance_phase gsWDay).players = gsWDay.players) := by
  constructor
  · have h := (c1_new_round_on_entering_day_discussion gsW).2.1 (by decide)
    exact ⟨h.1, h.2.2.1⟩
  · exact (c1_new_round_on_entering_day_discussion gsWDay).2.2 (by decide)

/-- C3 (failing): after `initialize_game` on two mafia-aligned players, the
FIRST-created mafia player's `known_roles` has NO entry for the
second-created mafia player, while the second knows the first — the seeding
loop only looks backwards, so mutual mafia recognition fails. -/
theorem c3_failing_mafia_knowledge_not_mutual :
    ∃ p1 p2 : Player,
      dictGet (initialize_game
        [("Alice", PlayerRole.MAFIA), ("Bob", PlayerRole.GODFATHER)]).players
        "player_1" = some p1 ∧
      dictGet (initialize_game
        [("Alice", PlayerRole.MAFIA), ("Bob", PlayerRole.GODFATHER)]).players
        "player_2" = some p2 ∧
      p1.team = TeamAlignment.MAFIA ∧
      p2.team = TeamAlignment.MAFIA ∧
      dictGet p1.known_roles "player_2" = none ∧
      dictGet p2.known_roles "player_1" = some PlayerRole.MAFIA := by
  refine ⟨_, _, rfl, rfl, ?_, ?_, ?_, ?_⟩ <;> decide

/-- C7 (failing): a night kill action whose target id resolves to no player
makes the night-action round raise (`KeyError`, modelled as `Except.error`),
while the day-voting round on the same unresolvable ballot completes and
simply drops the ballot (no vote recorded, no elimination). -/
theorem c7_failing_night_path_raises_on_unresolvable_target :
    run_action_round {} gsGhost (fun _ => some killGhost) = .error "KeyError" ∧
    (∃ gs', run_voting_round {} gsGhost (fun _ => some "ghost") = .ok gs' ∧
      gs'.votes = [] ∧ gs'.players = gsGhost.players) := by
  exact ⟨rfl, ⟨gsGhost, rfl, rfl, rfl⟩⟩

/-- C6: for every Detective investigate action whose actor and target
resolve, the reported result is "innocent" iff the target is
village-aligned or is the Godfather under the enabled
`godfather_appears_innocent` mechanic (and "Mafia" otherwise); the
detective's `known_roles` gains the target's true role exactly when the
result is not the Godfather disguise case; and the emitted investigation
event is private with the detective's id as its only target. -/
theorem c6_investigation_result_and_knowledge (cfg : Mechanics) (gs : GameState)
    (ia : Action) (detective target : Player) (tid : String)
    (hA : dictGet gs.players ia.actor_id = some detective)
    (hT : ia.target_id = some tid)
    (hG : dictGet gs.players tid = some target) :
    (investigationResult cfg target = "innocent" ↔
      (target.team = TeamAlignment.VILLAGE ∨
        (target.role = PlayerRole.GODFATHER ∧
          cfg.godfather_appears_innocent = true))) ∧
    (investigationResult cfg target = "Mafia" ↔
      ¬(target.team = TeamAlignment.VILLAGE ∨
        (target.role = PlayerRole.GODFATHER ∧
          cfg.godfather_appears_innocent = true))) ∧
    (∃ gs', stageInvestigate (some ia) cfg gs = .ok gs' ∧
      (appearsInnocent cfg target = true →
        (dictGet gs'.players ia.actor_id).map Player.known_roles =
          some detective.known_roles) ∧
      (appearsInnocent cfg target = false →
        ∃ det', dictGet gs'.players ia.actor_id = some det' ∧
          det'.known_roles =
            dictInsert detective.known_roles target.id target.role) ∧
      (∃ e, gs'.events = gs.events ++ [e] ∧ e.event_type = "investigation" ∧
        e.public = false ∧ e.targets = [detective.id])) := by
  have hinn : appearsInnocent cfg target = true ↔
      (target.role = PlayerRole.GODFATHER ∧ cfg.godfather_appears_innocent = true) := by
    simp [appearsInnocent]
  refine ⟨?_, ?_, ?_⟩
  · unfold investigationResult
    by_cases h : target.team = TeamAlignment.VILLAGE ∨ appearsInnocent cfg target = true
    · rw [if_pos h]
      simp only [true_iff]
      rcases h with h | h
      · exact Or.inl h
      · exact Or.inr (hinn.mp h)
    · rw [if_neg h]
      constructor
      · intro hcontra
        exact absurd hcontra (by decide)
      · intro hor
        exact absurd (hor.imp id (fun hh => hinn.mpr hh)) h
  · unfold investigationResult
    by_cases h : target.team = TeamAlignment.VILLAGE ∨ appearsInnocent cfg target = true
    · rw [if_pos h]
      constructor
      · intro hcontra
        exact absurd hcontra (by decide)
      · intro hno
        exact absurd (h.imp id (fun hh => hinn.mp hh)) hno
    · rw [if_neg h]
      simp only [true_iff]
      exact fun hor => h (hor.imp id (fun hh => hinn.mpr hh))
  · by_cases hai : appearsInnocent cfg target = true
    · have heq : stageInvestigate (some ia) cfg gs =
          Except.ok (addGameEvent "investigation"
            ("You investigated " ++ target.name ++ " and found them to be " ++
              investigationResult cfg target ++ ".") false [detective.id] gs) := by
        simp only [stageInvestigate, hA, hT, hG]
        rw [if_neg (by simp [hai])]
      refine ⟨_, heq, ?_, ?_, ?_⟩
      · intro _
        simp [addGameEvent, hA]
      · intro hfalse
        rw [hai] at hfalse
        cases hfalse
      · exact ⟨_, rfl, rfl, rfl, rfl⟩
    · rw [Bool.not_eq_true] at hai
      have heq : stageInvestigate (some ia) cfg gs =
          Except.ok (addGameEvent "investigation"
            ("You investigated " ++ target.name ++ " and found them to be " ++
              investigationResult cfg target ++ ".") false [detective.id]
            { gs with players := dictModify gs.players ia.actor_id (fun p =>
                { p with known_roles :=
                    dictInsert p.known_roles target.id target.role }) }) := by
        simp only [stageInvestigate, hA, hT, hG]
        rw [if_pos hai]
      refine ⟨_, heq, ?_, ?_, ?_⟩
      · intro htrue
        rw [hai] at htrue
        cases htrue
      · intro _
        have h1 : dictGet (dictModify gs.players ia.actor_id (fun p =>
            { p with known_roles := dictInsert p.known_roles target.id target.role }))
            ia.actor_id =
            some { detective with known_roles := dictInsert detective.known_roles target.id target.role } := by
          rw [dictGet_dictModify_self, hA]
          rfl
        exact ⟨_, h1, rfl⟩
      · exact ⟨_, rfl, rfl, rfl, rfl⟩

/-- Witness for C6: Dave investigating the Godfather Erin with the default
mechanics reports "innocent" and learns nothing. -/
theorem c6_witness :
    investigationResult {} erin = "innocent" ∧
    (∃ gs', stageInvestigate (some invErin) {} gsW = .ok gs' ∧
      (dictGet gs'.players "player_4").map Player.known_roles =
        some dave.known_roles) := by
  have h := c6_investigation_result_and_knowledge {} gsW invErin dave erin
    "player_5" rfl rfl rfl
  refine ⟨h.1.mpr (Or.inr ⟨rfl, rfl⟩), ?_⟩
  obtain ⟨gs', heq, hinnocent, _, _⟩ := h.2.2
  exact ⟨gs', heq, hinnocent rfl⟩

/-! ### Vote-resolution lemmas -/

theorem eliminateByVote_facts (cfg : Mechanics) (eid : String) (ep : Player)
    (mv : Nat) (gs : GameState) (hep : dictGet gs.players eid = some ep) :
    (∃ ep', dictGet (eliminateByVote cfg eid ep mv gs).players eid = some ep' ∧
      ep'.status = PlayerStatus.DEAD) ∧
    (∃ e1 e2, (eliminateByVote cfg eid ep mv gs).events = gs.events ++ [e1, e2] ∧
      e1.event_type = "vote_result" ∧ e1.public = true ∧ e1.targets = [eid] ∧
      e2.event_type = "elimination" ∧ e2.public = true ∧ e2.targets = [eid]) := by
  by_cases hrev : cfg.reveal_role_on_death
  · constructor
    · have h : dictGet (eliminateByVote cfg eid ep mv gs).players eid =
          some (Player.mk ep.id ep.name ep.role PlayerStatus.DEAD ep.«protected»
            (dictInsert ep.known_roles eid ep.role)) := by
        simp only [eliminateByVote, addGameEvent, hrev, if_pos]
        rw [dictGet_mapVals, dictGet_dictModify_self, hep]
        rfl
      exact ⟨_, h, rfl⟩
    · have hev : (eliminateByVote cfg eid ep mv gs).events = gs.events ++
          [GameEvent.mk "vote_result" gs.current_round gs.current_phase
            (ep.name ++ " has been eliminated with " ++ toString mv ++ " votes!")
            true [eid],
           GameEvent.mk "elimination" gs.current_round gs.current_phase
            (ep.name ++ " has been eliminated! They were a " ++ ep.role.name ++ ".")
            true [eid]] := by
        simp only [eliminateByVote, addGameEvent, hrev, if_pos]
        rw [List.append_assoc]
        rfl
      exact ⟨_, _, hev, rfl, rfl, rfl, rfl, rfl, rfl⟩
  · rw [Bool.not_eq_true] at hrev
    constructor
    · have h : dictGet (eliminateByVote cfg eid ep mv gs).players eid =
          some (Player.mk ep.id ep.name ep.role PlayerStatus.DEAD ep.«protected»
            ep.known_roles) := by
        simp only [eliminateByVote, addGameEvent, hrev, Bool.false_eq_true, if_false]
        rw [dictGet_dictModify_self, hep]
        rfl
      exact ⟨_, h, rfl⟩
    · have hev : (eliminateByVote cfg eid ep mv gs).events = gs.events ++
          [GameEvent.mk "vote_result" gs.current_round gs.current_phase
            (ep.name ++ " has been eliminated with " ++ toString mv ++ " votes!")
            true [eid],
           GameEvent.mk "elimination" gs.current_round gs.current_phase
            (ep.name ++ " has been eliminated!") true [eid]] := by
        simp only [eliminateByVote, addGameEvent, hrev, Bool.false_eq_true, if_false]
        rw [List.append_assoc]
        rfl
      exact ⟨_, _, hev, rfl, rfl, rfl, rfl, rfl, rfl⟩

theorem eliminateByVote_reveal_updates_all (cfg : Mechanics) (eid : String)
    (ep : Player) (mv : Nat) (gs : GameState)
    (hrev : cfg.reveal_role_on_death = true) :
    ∀ kp ∈ (eliminateByVote cfg eid ep mv gs).players,
      dictGet kp.2.known_roles eid = some ep.role := by
  intro kp hkp
  simp only [eliminateByVote, addGameEvent, hrev, if_pos, mapVals, List.mem_map]
    at hkp
  obtain ⟨y, _, rfl⟩ := hkp
  exact dictGet_dictInsert_self _ _ _

/-- C4: a voting round with at least one valid ballot eliminates the unique
maximum holder (status DEAD, public `vote_result` and `elimination`
events), and on a tie for the maximum eliminates nobody and emits the
public tie `vote_result` event instead. -/
theorem c4_vote_resolution (cfg : Mechanics) (gs : GameState) (v : String × Nat)
    (vs : List (String × Nat)) :
    (∀ eid ep,
      ((v :: vs).filter
        (fun x => decide (x.2 = pyMaxNat v.2 (vs.map Prod.snd)))).map Prod.fst =
        [eid] →
      dictGet gs.players eid = some ep →
      ∃ gs', resolveVotes cfg (v :: vs) gs = .ok gs' ∧
        (∃ ep', dictGet gs'.players eid = some ep' ∧
          ep'.status = PlayerStatus.DEAD) ∧
        (∃ e1 e2, gs'.events = gs.events ++ [e1, e2] ∧
          e1.event_type = "vote_result" ∧ e1.public = true ∧ e1.targets = [eid] ∧
          e2.event_type = "elimination" ∧ e2.public = true ∧
          e2.targets = [eid])) ∧
    (∀ names,
      1 < (((v :: vs).filter
        (fun x => decide (x.2 = pyMaxNat v.2 (vs.map Prod.snd)))).map
          Prod.fst).length →
      namesOf gs (((v :: vs).filter
        (fun x => decide (x.2 = pyMaxNat v.2 (vs.map Prod.snd)))).map Prod.fst) =
        some names →
      ∃ gs', resolveVotes cfg (v :: vs) gs = .ok gs' ∧
        gs'.players = gs.players ∧
        gs'.events = gs.events ++
          [GameEvent.mk "vote_result" gs.current_round gs.current_phase
            (String.intercalate ", " names ++ " are tied with " ++
              toString (pyMaxNat v.2 (vs.map Prod.snd)) ++
              " votes each. No one is eliminated.") true []]) := by
  constructor
  · intro eid ep htied hep
    have hval : (pyMaxBySnd v vs).2 = pyMaxNat v.2 (vs.map Prod.snd) :=
      pyMaxBySnd_snd v vs
    have hfil : pyMaxBySnd v vs ∈ (v :: vs).filter
        (fun x => decide (x.2 = pyMaxNat v.2 (vs.map Prod.snd))) :=
      List.mem_filter.mpr ⟨pyMaxBySnd_mem v vs, by simp [hval]⟩
    have hm1 : (pyMaxBySnd v vs).1 = eid := by
      have hmem : (pyMaxBySnd v vs).1 ∈ ((v :: vs).filter
          (fun x => decide (x.2 = pyMaxNat v.2 (vs.map Prod.snd)))).map Prod.fst :=
        List.mem_map.mpr ⟨_, hfil, rfl⟩
      rw [htied] at hmem
      simpa using hmem
    have hnotlen : ¬ 1 < (((v :: vs).filter
        (fun x => decide (x.2 = pyMaxNat v.2 (vs.map Prod.snd)))).map
          Prod.fst).length := by
      rw [htied]
      simp
    have heq : resolveVotes cfg (v :: vs) gs =
        .ok (eliminateByVote cfg eid ep (pyMaxNat v.2 (vs.map Prod.snd)) gs) := by
      simp only [resolveVotes]
      rw [if_neg hnotlen, hm1, hep]
    exact ⟨_, heq, eliminateByVote_facts cfg eid ep _ gs hep⟩
  · intro names hlen hnames
    have heq : resolveVotes cfg (v :: vs) gs =
        .ok (tieVoteResult names (pyMaxNat v.2 (vs.map Prod.snd)) gs) := by
      simp only [resolveVotes]
      rw [if_pos hlen, hnames]
    refine ⟨_, heq, rfl, ?_⟩
    simp [tieVoteResult, addGameEvent]

/-- Witness for C4: with ballots `{Bob: 3, Carol: 1}` Bob dies; with
`{Bob: 2, Carol: 2}` nobody's player record changes. -/
theorem c4_witness :
    (∃ gs', resolveVotes {} [("player_2", 3), ("player_3", 1)] gsW = .ok gs' ∧
      (∃ ep', dictGet gs'.players "player_2" = some ep' ∧
        ep'.status = PlayerStatus.DEAD)) ∧
    (∃ gs', resolveVotes {} [("player_2", 2), ("player_3", 2)] gsW = .ok gs' ∧
      gs'.players = gsW.players) := by
  constructor
  · obtain ⟨gs', heq, hdead, _⟩ :=
      (c4_vote_resolution {} gsW ("player_2", 3) [("player_3", 1)]).1
        "player_2" bob (by decide) rfl
    exact ⟨gs', heq, hdead⟩
  · obtain ⟨gs', heq, hpl, _⟩ :=
      (c4_vote_resolution {} gsW ("player_2", 2) [("player_3", 2)]).2
        ["Bob", "Carol"] (by decide) rfl
    exact ⟨gs', heq, hpl⟩

theorem killSuccess_reveal_updates_all (cfg : Mechanics) (tid : String)
    (target : Player) (gs : GameState) (hrev : cfg.reveal_role_on_death = true) :
    ∀ kp ∈ (killSuccess cfg tid target gs).players,
      dictGet kp.2.known_roles tid = some target.role := by
  intro kp hkp
  simp only [killSuccess, addGameEvent, hrev, if_pos, mapVals, List.mem_map] at hkp
  obtain ⟨y, _, rfl⟩ := hkp
  exact dictGet_dictInsert_self _ _ _

/-- C9: with `reveal_role_on_death` enabled, both the day-vote elimination
and the night-kill write the victim's true role into the `known_roles` of
EVERY entry of the player map — including the freshly dead victim itself —
and the two elimination paths reduce to exactly these update blocks. -/
theorem c9_reveal_updates_every_player_including_dead :
    (∀ (cfg : Mechanics) (gs : GameState) (v : String × Nat)
        (vs : List (String × Nat)) (eid : String) (ep : Player),
      cfg.reveal_role_on_death = true →
      ((v :: vs).filter
        (fun x => decide (x.2 = pyMaxNat v.2 (vs.map Prod.snd)))).map Prod.fst =
        [eid] →
      dictGet gs.players eid = some ep →
      resolveVotes cfg (v :: vs) gs =
        .ok (eliminateByVote cfg eid ep (pyMaxNat v.2 (vs.map Prod.snd)) gs) ∧
      (∀ kp ∈ (eliminateByVote cfg eid ep (pyMaxNat v.2 (vs.map Prod.snd))
          gs).players, dictGet kp.2.known_roles eid = some ep.role) ∧
      (∃ dead, dictGet (eliminateByVote cfg eid ep (pyMaxNat v.2 (vs.map Prod.snd))
          gs).players eid = some dead ∧
        dead.status = PlayerStatus.DEAD ∧
        dictGet dead.known_roles eid = some ep.role)) ∧
    (∀ (ka : Action) (ppid : Option String) (cfg : Mechanics) (gs : GameState)
        (tid : String) (target : Player),
      cfg.reveal_role_on_death = true →
      ka.target_id = some tid →
      dictGet gs.players tid = some target →
      some tid ≠ ppid →
      stageKill (some ka) ppid cfg gs = .ok (killSuccess cfg tid target gs) ∧
      (∀ kp ∈ (killSuccess cfg tid target gs).players,
        dictGet kp.2.known_roles tid = some target.role) ∧
      (∃ dead, dictGet (killSuccess cfg tid target gs).players tid = some dead ∧
        dead.status = PlayerStatus.DEAD ∧
        dictGet dead.known_roles tid = some target.role)) := by
  constructor
  · intro cfg gs v vs eid ep hrev htied hep
    have hval : (pyMaxBySnd v vs).2 = pyMaxNat v.2 (vs.map Prod.snd) :=
      pyMaxBySnd_snd v vs
    have hfil : pyMaxBySnd v vs ∈ (v :: vs).filter
        (fun x => decide (x.2 = pyMaxNat v.2 (vs.map Prod.snd))) :=
      List.mem_filter.mpr ⟨pyMaxBySnd_mem v vs, by simp [hval]⟩
    have hm1 : (pyMaxBySnd v vs).1 = eid := by
      have hmem : (pyMaxBySnd v vs).1 ∈ ((v :: vs).filter
          (fun x => decide (x.2 = pyMaxNat v.2 (vs.map Prod.snd)))).map Prod.fst :=
        List.mem_map.mpr ⟨_, hfil, rfl⟩
      rw [htied] at hmem
      simpa using hmem
    have hnotlen : ¬ 1 < (((v :: vs).filter
        (fun x => decide (x.2 = pyMaxNat v.2 (vs.map Prod.snd)))).map
          Prod.fst).length := by
      rw [htied]
      simp
    refine ⟨?_, eliminateByVote_reveal_updates_all cfg eid ep _ gs hrev, ?_⟩
    · simp only [resolveVotes]
      rw [if_neg hnotlen, hm1, hep]
    · have h : dictGet (eliminateByVote cfg eid ep (pyMaxNat v.2 (vs.map Prod.snd))
          gs).players eid =
          some (Player.mk ep.id ep.name ep.role PlayerStatus.DEAD ep.«protected»
            (dictInsert ep.known_roles eid ep.role)) := by
        simp only [eliminateByVote, addGameEvent, hrev, if_pos]
        rw [dictGet_mapVals, dictGet_dictModify_self, hep]
        rfl
      exact ⟨_, h, rfl, dictGet_dictInsert_self _ _ _⟩
  · intro ka ppid cfg gs tid target hrev hkt hG hne
    refine ⟨?_, killSuccess_reveal_updates_all cfg tid target gs hrev, ?_⟩
    · simp only [stageKill, hkt, hG]
      rw [if_neg hne]
    · have h : dictGet (killSuccess cfg tid target gs).players tid =
          some (Player.mk target.id target.name target.role PlayerStatus.DEAD
            target.«protected» (dictInsert target.known_roles tid target.role)) := by
        simp only [killSuccess, addGameEvent, hrev, if_pos]
        rw [dictGet_mapVals, dictGet_dictModify_self, hG]
        rfl
      exact ⟨_, h, rfl, dictGet_dictInsert_self _ _ _⟩

/-- Witness for C9: Bob voted out with reveal enabled is recorded in every
player's `known_roles` (his own included), and the night kill of Carol does
the same. -/
theorem c9_witness :
    (∀ kp ∈ (eliminateByVote {} "player_2" bob 3 gsW).players,
      dictGet kp.2.known_roles "player_2" = some PlayerRole.MAFIA) ∧
    (∃ dead, dictGet (killSuccess {} "player_3" carol gsW).players "player_3" =
        some dead ∧ dead.status = PlayerStatus.DEAD ∧
      dictGet dead.known_roles "player_3" = some PlayerRole.VILLAGER) := by
  constructor
  · have h := (c9_reveal_updates_every_player_including_dead.1 {} gsW
      ("player_2", 3) [("player_3", 1)] "player_2" bob rfl (by decide) rfl).2.1
    exact h
  · have h := (c9_reveal_updates_every_player_including_dead.2 killCarol none {}
      gsW "player_3" carol rfl rfl rfl (by decide)).2.2
    exact h

/-! ### Night-resolver preservation lemmas -/

theorem statusAt_eq_some (d : List (String × Player)) (k : String)
    (st : PlayerStatus) (h : statusAt d k = some st) :
    ∃ p, dictGet d k = some p ∧ p.status = st := by
  unfold statusAt at h
  cases hg : dictGet d k with
  | none => rw [hg] at h; cases h
  | some q =>
    rw [hg] at h
    exact ⟨q, rfl, by simpa using h⟩

theorem stageInvestigate_ok_facts (ia : Option Action) (cfg : Mechanics)
    (gs gs₁ : GameState) (h : stageInvestigate ia cfg gs = .ok gs₁) :
    (∀ k, statusAt gs₁.players k = statusAt gs.players k) ∧
    mafiaIds gs₁.players = mafiaIds gs.players := by
  cases ia with
  | none =>
    simp only [stageInvestigate] at h
    cases h
    exact ⟨fun _ => rfl, rfl⟩
  | some a =>
    simp only [stageInvestigate] at h
    cases hA : dictGet gs.players a.actor_id with
    | none => rw [hA] at h; simp at h
    | some detective =>
      simp only [hA] at h
      cases hT : a.target_id with
      | none => rw [hT] at h; simp at h
      | some tid =>
        simp only [hT] at h
        cases hG : dictGet gs.players tid with
        | none => rw [hG] at h; simp at h
        | some target =>
          simp only [hG] at h
          by_cases hai : appearsInnocent cfg target = false
          · rw [if_pos hai] at h
            cases h
            refine ⟨?_, ?_⟩
            · intro k
              exact statusAt_dictModify _ _ _ _ (fun _ => rfl)
            · exact mafiaIds_dictModify _ _ _ (fun _ => ⟨rfl, rfl⟩)
          · rw [if_neg hai] at h
            cases h
            exact ⟨fun _ => rfl, rfl⟩

theorem protectPlayer_statusAt (tid : String) (pp : Player) (aid : String)
    (gs : GameState) (k : String) :
    statusAt (protectPlayer tid pp aid gs).players k = statusAt gs.players k :=
  statusAt_dictModify _ _ _ _ (fun _ => rfl)

theorem protectPlayer_mafiaIds (tid : String) (pp : Player) (aid : String)
    (gs : GameState) :
    mafiaIds (protectPlayer tid pp aid gs).players = mafiaIds gs.players :=
  mafiaIds_dictModify _ _ _ (fun _ => ⟨rfl, rfl⟩)

theorem killFailed_players (t : Player) (gs : GameState) :
    (killFailed t gs).players = gs.players := rfl

theorem killFailed_events (t : Player) (gs : GameState) :
    (killFailed t gs).events = gs.events ++
      [GameEvent.mk "kill_failed" gs.current_round gs.current_phase
        ("You tried to eliminate " ++ t.name ++ ", but they were protected!")
        false (mafiaIds gs.players),
       GameEvent.mk "night_result" gs.current_round gs.current_phase
        "The night passes peacefully. No one was eliminated." true []] := by
  simp only [killFailed, addGameEvent]
  rw [List.append_assoc]
  rfl

theorem resetProtected_statusAt (gs : GameState) (k : String) :
    statusAt (resetProtected gs).players k = statusAt gs.players k := by
  simp only [resetProtected]
  exact statusAt_mapVals _ _ _ (fun _ => rfl)

theorem resetProtected_events (gs : GameState) :
    (resetProtected gs).events = gs.events := rfl

/-- C5: when the Doctor protects `x` and the resolved kill action (the
Godfather's, else the Mafia's) also targets `x`, the whole night resolution
leaves `x` ALIVE, emits a private `kill_failed` event whose targets include
every alive mafia-aligned player, and emits the public peaceful-night
event. -/
theorem c5_protected_target_survives (actions : List (PlayerRole × Action))
    (cfg : Mechanics) (gs gs' : GameState) (pa ka : Action) (x : String)
    (px : Player)
    (hd : dictGet actions PlayerRole.DOCTOR = some pa)
    (hdt : pa.target_id = some x)
    (hk : killActionOf actions = some ka)
    (hkt : ka.target_id = some x)
    (hx : dictGet gs.players x = some px)
    (halive : px.status = PlayerStatus.ALIVE)
    (hrun : process_night_actions actions cfg gs = .ok gs') :
    (∃ px', dictGet gs'.players x = some px' ∧
      px'.status = PlayerStatus.ALIVE) ∧
    (∃ e, e ∈ gs'.events ∧ e.event_type = "kill_failed" ∧ e.public = false ∧
      ∀ kp ∈ gs.players, kp.2.is_alive = true →
        kp.2.team = TeamAlignment.MAFIA → kp.2.id ∈ e.targets) ∧
    (∃ e, e ∈ gs'.events ∧ e.event_type = "night_result" ∧ e.public = true ∧
      e.description = "The night passes peacefully. No one was eliminated.") := by
  simp only [process_night_actions] at hrun
  cases hInv : stageInvestigate (dictGet actions PlayerRole.DETECTIVE) cfg gs with
  | error e => rw [hInv] at hrun; simp at hrun
  | ok gs₁ =>
    simp only [hInv] at hrun
    obtain ⟨hstat₁, hmaf₁⟩ := stageInvestigate_ok_facts _ _ _ _ hInv
    have hsx : statusAt gs₁.players x = some px.status := by
      rw [hstat₁ x]
      unfold statusAt
      rw [hx]
      rfl
    obtain ⟨px₁, hpx₁, hst₁⟩ := statusAt_eq_some _ _ _ hsx
    have hprot : stageProtect (dictGet actions PlayerRole.DOCTOR) gs₁ =
        .ok (some x, protectPlayer x px₁ pa.actor_id gs₁) := by
      simp only [stageProtect, hd, hdt, hpx₁]
    simp only [hprot, hk] at hrun
    have hx₂ : dictGet (protectPlayer x px₁ pa.actor_id gs₁).players x =
        some { px₁ with «protected» := true } := by
      simp only [protectPlayer, addGameEvent]
      rw [dictGet_dictModify_self, hpx₁]
      rfl
    have hkill : stageKill (some ka) (some x) cfg
        (protectPlayer x px₁ pa.actor_id gs₁) =
        .ok (killFailed { px₁ with «protected» := true }
          (protectPlayer x px₁ pa.actor_id gs₁)) := by
      simp only [stageKill, hkt, hx₂]
      simp
    simp only [hkill, Except.ok.injEq] at hrun
    subst hrun
    refine ⟨?_, ?_, ?_⟩
    · have hfin : statusAt (resetProtected (killFailed
          { px₁ with «protected» := true }
          (protectPlayer x px₁ pa.actor_id gs₁))).players x = some px.status := by
        rw [resetProtected_statusAt, killFailed_players, protectPlayer_statusAt,
          hsx]
      obtain ⟨p', hp', hps⟩ := statusAt_eq_some _ _ _ hfin
      exact ⟨p', hp', by rw [hps, halive]⟩
    · refine ⟨GameEvent.mk "kill_failed"
        (protectPlayer x px₁ pa.actor_id gs₁).current_round
        (protectPlayer x px₁ pa.actor_id gs₁).current_phase
        ("You tried to eliminate " ++
          ({ px₁ with «protected» := true } : Player).name ++
          ", but they were protected!") false
        (mafiaIds (protectPlayer x px₁ pa.actor_id gs₁).players), ?_, rfl, rfl, ?_⟩
      · rw [resetProtected_events, killFailed_events]
        simp
      · intro kp hkp hal hteam
        show kp.2.id ∈ mafiaIds (protectPlayer x px₁ pa.actor_id gs₁).players
        rw [protectPlayer_mafiaIds, hmaf₁]
        exact mem_mafiaIds gs.players kp hkp hteam
    · refine ⟨GameEvent.mk "night_result"
        (protectPlayer x px₁ pa.actor_id gs₁).current_round
        (protectPlayer x px₁ pa.actor_id gs₁).current_phase
        "The night passes peacefully. No one was eliminated." true [], ?_, rfl,
        rfl, rfl⟩
      rw [resetProtected_events, killFailed_events]
      simp

/-- Witness for C5: the Doctor protects Carol, the Mafia kill targets
Carol — she stays alive and the mafia-private failure plus public peaceful
night are recorded. -/
theorem c5_witness :
    process_night_actions actsW {} gsW = .ok gsW5 ∧
    (∃ px', dictGet gsW5.players "player_3" = some px' ∧
      px'.status = PlayerStatus.ALIVE) ∧
    (∃ e, e ∈ gsW5.events ∧ e.event_type = "kill_failed" ∧ e.public = false) := by
  have heq : process_night_actions actsW {} gsW = .ok gsW5 := rfl
  have h := c5_protected_target_survives actsW {} gsW gsW5 protCarol killCarol
    "player_3" carol rfl rfl rfl rfl rfl rfl heq
  obtain ⟨e, he, ht, hp, _⟩ := h.2.1
  exact ⟨heq, h.1, e, he, ht, hp⟩

end LLMafia
